import Mathlib

set_option maxRecDepth 16000

/-
Shallow embedding of the 2i-emulator core (Minirechner 2i), translated from
src/src/Alu.cpp, src/src/SoC.cpp, src/include/SoC.h and src/Alu.h.
Machine integers are modelled as Nat with explicit masking where the C++
bitset types narrow.  Array accesses are bounds-checked (Option) so that
the absence of out-of-range accesses is a provable statement.
src/src/Cpu.cpp is an earlier draft of SoC.cpp (its runInstruction body is
empty); the only member it alone implements is setOutputRegister, declared
in SoC.h and embedded below from that draft.
-/

namespace Minirechner2i

/-- The two error kinds of the core: the three bus faults thrown by
runInstruction, modelled separately from out-of-range access. -/
inductive Fault where
  | readDisabled
  | readWriteOnly
  | writeToInput
deriving DecidableEq

/-- The flag register, a bitset of 3 bits in the source:
flags[0] = carry, flags[1] = negative, flags[2] = zero. -/
structure Flags where
  c : Bool
  n : Bool
  z : Bool
deriving DecidableEq

/-- Embedding of the C++ statement form  bit = ~boolExpr  (Alu.cpp lines 35
and 45): the bool is promoted to int (0 or 1), complemented bitwise
(giving -1 or -2), and the assignment to a bitset reference converts the
int back to bool by a nonzero test. -/
def bitsetAssignNotBool (x : Bool) : Bool :=
  decide ((-(if x then (1 : Int) else 0) - 1) ≠ 0)

/-- Assignment f[7] = x on an 8-bit value, as in the shift cases of the ALU. -/
def setBit7 (f : Nat) (x : Bool) : Nat :=
  if x then f ||| 128 else f &&& 127

/-- Embedding of Alu::calculate (src/src/Alu.cpp).  Operands a and b are
8-bit (bitset<8>), the function selector is 4-bit; the flags argument
carries the carry-in in .c and the returned flags are the newly computed
carry / negative / zero bits.  Each case mirrors the switch in the source,
including case 3, which computes ~(a|b) (not 0), and cases 5 and 7, whose
carry assignment goes through bitsetAssignNotBool. -/
def aluCalculate (function a b : Nat) (flags : Flags) : Nat × Flags :=
  let cin := flags.c
  let fc : Nat × Bool :=
    match function with
    | 0 => (a, false)                                       -- F = A
    | 1 => (b, false)                                       -- F = B
    | 2 => ((a ||| b) ^^^ 255, false)                       -- F = A NOR B
    | 3 => ((a ||| b) ^^^ 255, false)                       -- F = 0 (source computes A NOR B)
    | 4 => let tmp := a + b                                 -- F = A + B
           (tmp % 256, decide (tmp > 255))
    | 5 => let tmp := a + b + 1                             -- F = A + B + 1, Ca inverted
           (tmp % 256, bitsetAssignNotBool (decide (tmp > 255)))
    | 6 => let tmp := a + b + (if cin then 1 else 0)        -- F = A + B + Cin
           (tmp % 256, decide (tmp > 255))
    | 7 => let tmp := a + b + (if cin then 0 else 1)        -- F = A + B + ~Cin, Ca inverted
           (tmp % 256, bitsetAssignNotBool (decide (tmp > 255)))
    | 8 => (setBit7 (a >>> 1) false, a.testBit 0)           -- F(n) = A(n+1), F(7) = 0
    | 9 => (setBit7 (a >>> 1) (a.testBit 0), a.testBit 0)   -- F(n) = A(n+1), F(7) = A(0)
    | 10 => (setBit7 (a >>> 1) cin, a.testBit 0)            -- F(n) = A(n+1), F(7) = Cin
    | 11 => (setBit7 (a >>> 1) (a.testBit 7), a.testBit 0)  -- F(n) = A(n+1), F(7) = A(7)
    | 12 => (0, false)                                      -- F = 0, clear carry
    | 13 => (0, true)                                       -- F = 0, set carry
    | 14 => (0, cin)                                        -- F = 0, let carry
    | 15 => (0, !cin)                                       -- F = 0, invert carry (reference operator~)
    | _ => (0, cin)                                         -- unreachable: selector is 4-bit
  (fc.1, { c := fc.2, n := fc.1.testBit 7, z := decide (fc.1 = 0) })

/-- Embedding of SoC::substr<lengthNew>(b, start): the lengthNew bits of b
starting at bit index start.  All uses take b from a bitset<25> with
start + lengthNew ≤ 25, where this equals the C++ bit loop. -/
def substr (lengthNew b start : Nat) : Nat :=
  (b >>> start) % 2 ^ lengthNew

/-- Embedding of SoC::calculateNextAddress (src/src/SoC.cpp lines 73-106).
func is the 3-bit composition of mac[1], mac[0], next[0]; the result is
next with bit 0 replaced according to the switch. -/
def calculateNextAddress (next mac : Nat) (falgs flagRegister : Flags) : Nat :=
  let func := 4 * (mac / 2 % 2) + 2 * (mac % 2) + next % 2
  let b0 : Bool :=
    match func with
    | 0 => decide (next % 2 = 1)
    | 1 => decide (next % 2 = 1)
    | 2 => true
    | 3 => flagRegister.c
    | 4 => falgs.c
    | 5 => falgs.z
    | 6 => falgs.n
    | _ => false  -- case 7
  2 * (next / 2) + (if b0 then 1 else 0)

/-- Array sizes from src/include/SoC.h. -/
def ramSize : Nat := 252
def instructionRamSize : Nat := 32
def registerCount : Nat := 8
def inputRegisterCount : Nat := 4
def outputRegisterCount : Nat := 2

/-- The machine state owned by the SoC (src/include/SoC.h lines 71-86):
instruction memory, RAM, register file, input and output ports, the flag
register and the next-instruction pointer. -/
structure MachineState where
  instructionRam : List Nat
  ram : List Nat
  registers : List Nat
  inputRegister : List Nat
  outputRegister : List Nat
  flags : Flags
  nextInstruction : Nat
deriving DecidableEq

/-- The state at construction: C++ bitset members are zero-initialized. -/
def initialState : MachineState where
  instructionRam := List.replicate instructionRamSize 0
  ram := List.replicate ramSize 0
  registers := List.replicate registerCount 0
  inputRegister := List.replicate inputRegisterCount 0
  outputRegister := List.replicate outputRegisterCount 0
  flags := { c := false, n := false, z := false }
  nextInstruction := 0

/-- Bounds-checked array read; none models an out-of-range access. -/
def getA? (l : List Nat) (p : Nat) : Option Nat :=
  if p < l.length then some (l.getD p 0) else none

/-- Bounds-checked array write; none models an out-of-range access. -/
def setA? (l : List Nat) (p v : Nat) : Option (List Nat) :=
  if p < l.length then some (l.set p v) else none

/-- Operand b of the ALU (SoC.cpp lines 29-38).  With cur[5] set the 4-bit
field at bits 9-12 is the immediate: the source first sets all eight bits
of b when bit 3 of the immediate is set (b.set()), then overwrites bits
0-2 with the low immediate bits, leaving 248 + low3; otherwise b keeps
its zero initialization on bits 3-7.  With cur[5] clear b is read from
the register selected by bits 9-11. -/
def operandB (s : MachineState) (cur : Nat) : Option Nat :=
  if cur.testBit 5 then
    some ((if (substr 4 cur 9).testBit 3 then 248 else 0) + substr 4 cur 9 % 8)
  else getA? s.registers (substr 3 cur 9)

/-- Latch flags if cur[0] is set, then compute the next address
(SoC.cpp lines 65-70).  The source assigns the flags member first and then
passes that member as the flagRegister argument, so with cur[0] set the
next-address unit sees the just-computed flags in both arguments. -/
def latchAndAdvance (s : MachineState) (cur : Nat) (flagsNew : Flags) : MachineState :=
  let flags2 := if cur.testBit 0 then flagsNew else s.flags
  { s with flags := flags2,
           nextInstruction :=
             calculateNextAddress (substr 5 cur 18) (substr 2 cur 23) flagsNew flags2 }

/-- Bus write block of SoC::runInstruction (SoC.cpp lines 52-63) followed
by the flag latch and next-address update (lines 65-70): takes the state
as left by the register writeback, the ALU result f and the new flags.
The fault result for an address of 0xFC or 0xFD carries the state as
mutated up to the throw. -/
def busWritePhase (s1 : MachineState) (cur f : Nat) (flagsNew : Flags) :
    Option (MachineState × Option Fault) :=
  if cur.testBit 16 && cur.testBit 17 then
    (getA? s1.registers (substr 3 cur 13)).bind fun address =>
    if address = 0xFC ∨ address = 0xFD then some (s1, some Fault.writeToInput)
    else if 0xFE ≤ address then
      (setA? s1.outputRegister (address - 0xFE) f).bind fun out1 =>
      some (latchAndAdvance { s1 with outputRegister := out1 } cur flagsNew, none)
    else
      (setA? s1.ram address f).bind fun ram1 =>
      some (latchAndAdvance { s1 with ram := ram1 } cur flagsNew, none)
  else some (latchAndAdvance s1 cur flagsNew, none)

/-- The part of SoC::runInstruction after operand a is available
(SoC.cpp lines 29-70): operand b, ALU, register writeback, then the bus
write phase. -/
def runRest (s : MachineState) (cur a : Nat) : Option (MachineState × Option Fault) :=
  (operandB s cur).bind fun b =>
  let r := aluCalculate (substr 4 cur 1) a b s.flags
  (if cur.testBit 7 then
     if cur.testBit 8 then setA? s.registers (substr 3 cur 9) r.1
     else setA? s.registers (substr 3 cur 13) r.1
   else some s.registers).bind fun regs1 =>
  busWritePhase { s with registers := regs1 } cur r.1 r.2

/-- Embedding of SoC::runInstruction (src/src/SoC.cpp lines 8-71).
none models an out-of-range array access (never reached, see below);
some (s, some fault) models a thrown BusFault with the state as left by
the method, and some (s, none) a completed microcycle. -/
def runInstruction (s : MachineState) : Option (MachineState × Option Fault) :=
  (getA? s.instructionRam s.nextInstruction).bind fun cur =>
  (getA? s.registers (substr 3 cur 13)).bind fun aRegisterValue =>
  if cur.testBit 6 then
    if !cur.testBit 16 then some (s, some Fault.readDisabled)
    else if cur.testBit 17 then some (s, some Fault.readWriteOnly)
    else
      ((if 0xFC ≤ aRegisterValue
        then getA? s.inputRegister (aRegisterValue - 0xFC)
        else getA? s.ram aRegisterValue).bind fun a => runRest s cur a)
  else runRest s cur aRegisterValue

/-- Total form of operand a (value routed into the ALU): register value, or
on a bus read the input port for addresses at or above 0xFC and RAM below. -/
def aluInputA (s : MachineState) (cur : Nat) : Nat :=
  let aRegisterValue := s.registers.getD (substr 3 cur 13) 0
  if cur.testBit 6 then
    if 0xFC ≤ aRegisterValue then s.inputRegister.getD (aRegisterValue - 0xFC) 0
    else s.ram.getD aRegisterValue 0
  else aRegisterValue

/-- Total form of operand b. -/
def aluInputB (s : MachineState) (cur : Nat) : Nat :=
  if cur.testBit 5 then
    (if (substr 4 cur 9).testBit 3 then 248 else 0) + substr 4 cur 9 % 8
  else s.registers.getD (substr 3 cur 9) 0

/-- The ALU result F of the microcycle decoded from cur. -/
def aluF (s : MachineState) (cur : Nat) : Nat :=
  (aluCalculate (substr 4 cur 1) (aluInputA s cur) (aluInputB s cur) s.flags).1

/-- The flags computed by the ALU in the microcycle decoded from cur. -/
def aluFlagsNew (s : MachineState) (cur : Nat) : Flags :=
  (aluCalculate (substr 4 cur 1) (aluInputA s cur) (aluInputB s cur) s.flags).2

/-- The register file after the writeback step (SoC.cpp lines 44-50). -/
def regsAfterWriteback (s : MachineState) (cur : Nat) : List Nat :=
  if cur.testBit 7 then
    if cur.testBit 8 then s.registers.set (substr 3 cur 9) (aluF s cur)
    else s.registers.set (substr 3 cur 13) (aluF s cur)
  else s.registers

/-- The address sampled by the bus write (SoC.cpp line 54): the register
selected by bits 13-15, read after the writeback step. -/
def busWriteAddress (s : MachineState) (cur : Nat) : Nat :=
  (regsAfterWriteback s cur).getD (substr 3 cur 13) 0

/-- Total form of busWritePhase. -/
def busWritePhaseTotal (s1 : MachineState) (cur f : Nat) (flagsNew : Flags) :
    MachineState × Option Fault :=
  if cur.testBit 16 && cur.testBit 17 then
    let address := s1.registers.getD (substr 3 cur 13) 0
    if address = 0xFC ∨ address = 0xFD then (s1, some Fault.writeToInput)
    else if 0xFE ≤ address then
      (latchAndAdvance { s1 with outputRegister := s1.outputRegister.set (address - 0xFE) f } cur flagsNew, none)
    else
      (latchAndAdvance { s1 with ram := s1.ram.set address f } cur flagsNew, none)
  else (latchAndAdvance s1 cur flagsNew, none)

/-- Total form of runRest, given operand a. -/
def stepRest (s : MachineState) (cur a : Nat) : MachineState × Option Fault :=
  let r := aluCalculate (substr 4 cur 1) a (aluInputB s cur) s.flags
  let regs1 := if cur.testBit 7 then
                 if cur.testBit 8 then s.registers.set (substr 3 cur 9) r.1
                 else s.registers.set (substr 3 cur 13) r.1
               else s.registers
  busWritePhaseTotal { s with registers := regs1 } cur r.1 r.2

/-- Total form of runInstruction, proven below to agree with it on
well-formed states. -/
def stepTotal (s : MachineState) : MachineState × Option Fault :=
  let cur := s.instructionRam.getD s.nextInstruction 0
  if cur.testBit 6 && !cur.testBit 16 then (s, some Fault.readDisabled)
  else if cur.testBit 6 && cur.testBit 17 then (s, some Fault.readWriteOnly)
  else stepRest s cur (aluInputA s cur)

/-- Embedding of SoC::setInstruction: stores the word (narrowed to 25 bits
by the bitset<25> parameter) or fails out of range. -/
def setInstruction (position value : Nat) (s : MachineState) : Option MachineState :=
  if position < instructionRamSize then
    some { s with instructionRam := s.instructionRam.set position (value % 2 ^ 25) }
  else none

/-- Embedding of SoC::setRam. -/
def setRam (position value : Nat) (s : MachineState) : Option MachineState :=
  if position < ramSize then
    some { s with ram := s.ram.set position (value % 256) }
  else none

/-- Embedding of SoC::setInputRegister. -/
def setInputRegister (position value : Nat) (s : MachineState) : Option MachineState :=
  if position < inputRegisterCount then
    some { s with inputRegister := s.inputRegister.set position (value % 256) }
  else none

/-- Embedding of SoC::setOutputRegister, declared in src/include/SoC.h line
28 and implemented in src/src/Cpu.cpp lines 77-82. -/
def setOutputRegister (position value : Nat) (s : MachineState) : Option MachineState :=
  if position < outputRegisterCount then
    some { s with outputRegister := s.outputRegister.set position (value % 256) }
  else none

/-- Embedding of SoC::getOutputRegister. -/
def getOutputRegister (position : Nat) (s : MachineState) : Option Nat :=
  if position < outputRegisterCount then some (s.outputRegister.getD position 0)
  else none

/-- Well-formedness: the array lengths of SoC.h, the 5-bit pointer bound,
and the 8-bit bound on every stored byte that can feed an address. -/
def WF (s : MachineState) : Prop :=
  s.instructionRam.length = instructionRamSize ∧
  s.ram.length = ramSize ∧
  s.registers.length = registerCount ∧
  s.inputRegister.length = inputRegisterCount ∧
  s.outputRegister.length = outputRegisterCount ∧
  s.nextInstruction < 32 ∧
  (∀ x ∈ s.ram, x < 256) ∧
  (∀ x ∈ s.registers, x < 256) ∧
  (∀ x ∈ s.inputRegister, x < 256)

instance (s : MachineState) : Decidable (WF s) := by
  unfold WF; infer_instance

/-- States reachable through the public interface: construction, the
external mutators, and successful or faulting calls of runInstruction. -/
inductive Reachable : MachineState → Prop
  | init : Reachable initialState
  | step {s r} : Reachable s → runInstruction s = some r → Reachable r.1
  | loadWord {s p v t} : Reachable s → setInstruction p v s = some t → Reachable t
  | writeRam {s p v t} : Reachable s → setRam p v s = some t → Reachable t
  | writeInput {s p v t} : Reachable s → setInputRegister p v s = some t → Reachable t
  | writeOutput {s p v t} : Reachable s → setOutputRegister p v s = some t → Reachable t

/-- Concrete state for the next-address claims: flag register has carry
set, instruction 0 is CLC with FL=1, MAC=01, NEXT=00001
(bits 0, 3, 4, 18 and 23 set). -/
def stateC1 : MachineState :=
  { initialState with
      instructionRam := initialState.instructionRam.set 0 8650777,
      flags := { c := true, n := false, z := false } }

/-- Concrete state for the fault-atomicity claims: instruction 0 loads the
immediate 1100 (so F = 0xFC) with writeback to register 0 and performs an
enabled bus write (bits 1, 5, 7, 11, 12, 16, 17 set). -/
def stateC2 : MachineState :=
  { initialState with
      instructionRam := initialState.instructionRam.set 0 202914 }

theorem substr_lt (lengthNew b start : Nat) : substr lengthNew b start < 2 ^ lengthNew :=
  Nat.mod_lt _ (Nat.two_pow_pos lengthNew)

theorem getA?_pos {l : List Nat} {p : Nat} (h : p < l.length) :
    getA? l p = some (l.getD p 0) := by
  simp [getA?, h]

theorem setA?_pos {l : List Nat} {p : Nat} (v : Nat) (h : p < l.length) :
    setA? l p v = some (l.set p v) := by
  simp [setA?, h]

theorem getD_lt {l : List Nat} (p : Nat) (h : ∀ x ∈ l, x < 256) : l.getD p 0 < 256 := by
  rw [List.getD_eq_getElem?_getD]
  rcases hq : l[p]? with _ | x
  · simp
  · simpa using h x (List.getElem?_mem hq)

theorem getD_set_self {l : List Nat} {p : Nat} (v : Nat) (h : p < l.length) :
    (l.set p v).getD p 0 = v := by
  rw [List.getD_eq_getElem?_getD, List.getElem?_set_self' (a := v)]
  simp [List.getElem?_eq_getElem h]

theorem mem_set_lt {l : List Nat} {p v : Nat} (h : ∀ x ∈ l, x < 256) (hv : v < 256) :
    ∀ x ∈ l.set p v, x < 256 := by
  intro x hx
  rcases List.mem_or_eq_of_mem_set hx with hx | rfl
  · exact h x hx
  · exact hv

theorem aluCalculate_fst_lt (function a b : Nat) (fl : Flags)
    (ha : a < 256) (hb : b < 256) : (aluCalculate function a b fl).1 < 256 := by
  have hor : a ||| b < 256 := Nat.or_lt_two_pow (n := 8) ha hb
  have hxor : (a ||| b) ^^^ 255 < 256 := Nat.xor_lt_two_pow (n := 8) hor (by norm_num)
  have hshift : a >>> 1 < 256 := by
    rw [Nat.shiftRight_eq_div_pow]; omega
  have hset : ∀ x : Bool, setBit7 (a >>> 1) x < 256 := by
    intro x
    unfold setBit7
    rcases x with _ | _
    · simpa using Nat.and_lt_two_pow (n := 8) (a >>> 1) (by norm_num)
    · simpa using Nat.or_lt_two_pow (n := 8) hshift (by norm_num)
  rcases function with _|_|_|_|_|_|_|_|_|_|_|_|_|_|_|_|n <;>
    simp [aluCalculate, ha, hb, hxor, hset, Nat.mod_lt]

theorem calculateNextAddress_lt (next mac : Nat) (falgs flagRegister : Flags)
    (h : next < 32) : calculateNextAddress next mac falgs flagRegister < 32 := by
  unfold calculateNextAddress
  simp only []
  split <;> omega

theorem operandB_eq (s : MachineState) (cur : Nat) (hrl : s.registers.length = 8) :
    operandB s cur = some (aluInputB s cur) := by
  unfold operandB aluInputB
  split
  · rfl
  · exact getA?_pos (by rw [hrl]; exact substr_lt 3 cur 9)

theorem aluInputB_lt (s : MachineState) (cur : Nat)
    (hreg : ∀ x ∈ s.registers, x < 256) : aluInputB s cur < 256 := by
  unfold aluInputB
  split
  · split <;> omega
  · exact getD_lt _ hreg

theorem aluInputA_lt (s : MachineState) (cur : Nat)
    (hram : ∀ x ∈ s.ram, x < 256) (hreg : ∀ x ∈ s.registers, x < 256)
    (hin : ∀ x ∈ s.inputRegister, x < 256) : aluInputA s cur < 256 := by
  unfold aluInputA
  simp only []
  split
  · split
    · exact getD_lt _ hin
    · exact getD_lt _ hram
  · exact getD_lt _ hreg

theorem busWritePhase_eq (s1 : MachineState) (cur f : Nat) (flagsNew : Flags)
    (hrl : s1.registers.length = 8) (hraml : s1.ram.length = 252)
    (houtl : s1.outputRegister.length = 2)
    (hreg : ∀ x ∈ s1.registers, x < 256) :
    busWritePhase s1 cur f flagsNew = some (busWritePhaseTotal s1 cur f flagsNew) := by
  unfold busWritePhase busWritePhaseTotal
  split
  · rw [getA?_pos (l := s1.registers) (by rw [hrl]; exact substr_lt 3 cur 13),
      Option.some_bind]
    have haddr : s1.registers.getD (substr 3 cur 13) 0 < 256 := getD_lt _ hreg
    simp only []
    split
    · rfl
    · rename_i hfc
      split
      · rename_i hfe
        rw [setA?_pos _ (by rw [houtl]; omega), Option.some_bind]
      · rename_i hfe
        rw [setA?_pos _ (by rw [hraml]; omega), Option.some_bind]
  · rfl

theorem runRest_eq (s : MachineState) (cur a : Nat)
    (hrl : s.registers.length = 8) (hraml : s.ram.length = 252)
    (houtl : s.outputRegister.length = 2)
    (hreg : ∀ x ∈ s.registers, x < 256) (ha : a < 256) :
    runRest s cur a = some (stepRest s cur a) := by
  have hb : aluInputB s cur < 256 := aluInputB_lt s cur hreg
  have hf : (aluCalculate (substr 4 cur 1) a (aluInputB s cur) s.flags).1 < 256 :=
    aluCalculate_fst_lt _ _ _ _ ha hb
  unfold runRest stepRest
  rw [operandB_eq s cur hrl, Option.some_bind]
  simp only []
  split
  · split
    · rw [setA?_pos _ (by rw [hrl]; exact substr_lt 3 cur 9), Option.some_bind]
      exact busWritePhase_eq _ cur _ _ (by simpa using hrl) hraml houtl
        (mem_set_lt hreg hf)
    · rw [setA?_pos _ (by rw [hrl]; exact substr_lt 3 cur 13), Option.some_bind]
      exact busWritePhase_eq _ cur _ _ (by simpa using hrl) hraml houtl
        (mem_set_lt hreg hf)
  · rw [Option.some_bind]
    exact busWritePhase_eq _ cur _ _ hrl hraml houtl hreg

theorem runInstruction_eq (s : MachineState) (h : WF s) :
    runInstruction s = some (stepTotal s) := by
  obtain ⟨hil, hraml, hrl, hinl, houtl, hpc, hram, hreg, hin⟩ := h
  unfold runInstruction stepTotal
  rw [getA?_pos (by rw [hil]; exact hpc), Option.some_bind]
  rw [getA?_pos (by rw [hrl]; exact substr_lt 3 _ 13), Option.some_bind]
  have hA : s.registers.getD (substr 3 (s.instructionRam.getD s.nextInstruction 0) 13) 0 < 256 :=
    getD_lt _ hreg
  set cur := s.instructionRam.getD s.nextInstruction 0 with hcur
  by_cases h6 : cur.testBit 6
  · by_cases h16 : cur.testBit 16
    · by_cases h17 : cur.testBit 17
      · simp [h6, h16, h17]
      · have hAeq : aluInputA s cur =
            (if 0xFC ≤ s.registers.getD (substr 3 cur 13) 0
             then s.inputRegister.getD (s.registers.getD (substr 3 cur 13) 0 - 0xFC) 0
             else s.ram.getD (s.registers.getD (substr 3 cur 13) 0) 0) := by
          unfold aluInputA
          simp [h6]
        simp only [h6, h16, h17, Bool.not_true, Bool.not_false, if_true, if_false,
          Bool.and_true, Bool.and_false, Bool.true_and, Bool.false_and,
          Bool.and_self, ite_true, ite_false, Bool.false_eq_true, Bool.true_eq_false]
        split
        · rename_i hfc
          rw [getA?_pos (by rw [hinl]; simp only [inputRegisterCount]; omega), Option.some_bind,
            runRest_eq s cur _ hrl hraml houtl hreg (getD_lt _ hin)]
          rw [hAeq, if_pos hfc]
        · rename_i hfc
          rw [getA?_pos (by rw [hraml]; simp only [ramSize]; omega), Option.some_bind,
            runRest_eq s cur _ hrl hraml houtl hreg (getD_lt _ hram)]
          rw [hAeq, if_neg hfc]
    · simp [h6, h16]
  · have hAeq : aluInputA s cur = s.registers.getD (substr 3 cur 13) 0 := by
      unfold aluInputA
      simp [h6]
    simp only [h6, if_false, Bool.false_and, ite_false, Bool.false_eq_true]
    rw [runRest_eq s cur _ hrl hraml houtl hreg hA, hAeq]

theorem wf_latchAndAdvance (s : MachineState) (cur : Nat) (fl : Flags) (h : WF s) :
    WF (latchAndAdvance s cur fl) := by
  obtain ⟨h1, h2, h3, h4, h5, h6, h7, h8, h9⟩ := h
  exact ⟨h1, h2, h3, h4, h5,
    calculateNextAddress_lt _ _ _ _ (substr_lt 5 cur 18), h7, h8, h9⟩

theorem wf_busWritePhaseTotal (s1 : MachineState) (cur f : Nat) (fl : Flags)
    (h : WF s1) (hf : f < 256) : WF (busWritePhaseTotal s1 cur f fl).1 := by
  obtain ⟨h1, h2, h3, h4, h5, h6, h7, h8, h9⟩ := h
  unfold busWritePhaseTotal
  simp only []
  split
  · split
    · exact ⟨h1, h2, h3, h4, h5, h6, h7, h8, h9⟩
    · split
      · exact wf_latchAndAdvance _ cur fl
          ⟨h1, h2, h3, h4, by simpa using h5, h6, h7, h8, h9⟩
      · exact wf_latchAndAdvance _ cur fl
          ⟨h1, by simpa using h2, h3, h4, h5, h6, mem_set_lt h7 hf, h8, h9⟩
  · exact wf_latchAndAdvance _ cur fl ⟨h1, h2, h3, h4, h5, h6, h7, h8, h9⟩

theorem wf_stepRest (s : MachineState) (cur a : Nat) (h : WF s) (ha : a < 256) :
    WF (stepRest s cur a).1 := by
  obtain ⟨h1, h2, h3, h4, h5, h6, h7, h8, h9⟩ := h
  have hf : (aluCalculate (substr 4 cur 1) a (aluInputB s cur) s.flags).1 < 256 :=
    aluCalculate_fst_lt _ _ _ _ ha (aluInputB_lt s cur h8)
  unfold stepRest
  simp only []
  apply wf_busWritePhaseTotal _ cur _ _ ?_ hf
  split
  · split
    · exact ⟨h1, h2, by simpa using h3, h4, h5, h6, h7, mem_set_lt h8 hf, h9⟩
    · exact ⟨h1, h2, by simpa using h3, h4, h5, h6, h7, mem_set_lt h8 hf, h9⟩
  · exact ⟨h1, h2, h3, h4, h5, h6, h7, h8, h9⟩

theorem wf_stepTotal (s : MachineState) (h : WF s) : WF (stepTotal s).1 := by
  unfold stepTotal
  simp only []
  split
  · exact h
  · split
    · exact h
    · exact wf_stepRest s _ _ h
        (aluInputA_lt s _ h.2.2.2.2.2.2.1 h.2.2.2.2.2.2.2.1 h.2.2.2.2.2.2.2.2)

theorem wf_runInstruction {s : MachineState} {r : MachineState × Option Fault}
    (h : WF s) (hr : runInstruction s = some r) : WF r.1 := by
  rw [runInstruction_eq s h] at hr
  cases hr
  exact wf_stepTotal s h

set_option maxRecDepth 4000 in
theorem wf_initial : WF initialState := by decide

theorem wf_setInstruction {s t : MachineState} {p v : Nat} (h : WF s)
    (ht : setInstruction p v s = some t) : WF t := by
  obtain ⟨h1, h2, h3, h4, h5, h6, h7, h8, h9⟩ := h
  unfold setInstruction at ht
  split at ht
  · cases ht
    exact ⟨by simpa using h1, h2, h3, h4, h5, h6, h7, h8, h9⟩
  · cases ht

theorem wf_setRam {s t : MachineState} {p v : Nat} (h : WF s)
    (ht : setRam p v s = some t) : WF t := by
  obtain ⟨h1, h2, h3, h4, h5, h6, h7, h8, h9⟩ := h
  unfold setRam at ht
  split at ht
  · cases ht
    exact ⟨h1, by simpa using h2, h3, h4, h5, h6,
      mem_set_lt h7 (Nat.mod_lt _ (by norm_num)), h8, h9⟩
  · cases ht

theorem wf_setInputRegister {s t : MachineState} {p v : Nat} (h : WF s)
    (ht : setInputRegister p v s = some t) : WF t := by
  obtain ⟨h1, h2, h3, h4, h5, h6, h7, h8, h9⟩ := h
  unfold setInputRegister at ht
  split at ht
  · cases ht
    exact ⟨h1, h2, h3, by simpa using h4, h5, h6, h7, h8,
      mem_set_lt h9 (Nat.mod_lt _ (by norm_num))⟩
  · cases ht

theorem wf_setOutputRegister {s t : MachineState} {p v : Nat} (h : WF s)
    (ht : setOutputRegister p v s = some t) : WF t := by
  obtain ⟨h1, h2, h3, h4, h5, h6, h7, h8, h9⟩ := h
  unfold setOutputRegister at ht
  split at ht
  · cases ht
    exact ⟨h1, h2, h3, h4, by simpa using h5, h6, h7, h8, h9⟩
  · cases ht

theorem wf_reachable (s : MachineState) (h : Reachable s) : WF s := by
  induction h with
  | init => exact wf_initial
  | step _ hr ih => exact wf_runInstruction ih hr
  | loadWord _ ht ih => exact wf_setInstruction ih ht
  | writeRam _ ht ih => exact wf_setRam ih ht
  | writeInput _ ht ih => exact wf_setInputRegister ih ht
  | writeOutput _ ht ih => exact wf_setOutputRegister ih ht

theorem busWritePhaseTotal_pc (s1 : MachineState) (cur f : Nat) (fl : Flags)
    (h : (busWritePhaseTotal s1 cur f fl).2 = none) :
    (busWritePhaseTotal s1 cur f fl).1.nextInstruction =
      calculateNextAddress (substr 5 cur 18) (substr 2 cur 23) fl
        (if cur.testBit 0 then fl else s1.flags) := by
  unfold busWritePhaseTotal at h ⊢
  simp only [] at h ⊢
  by_cases hbus : (cur.testBit 16 && cur.testBit 17) = true
  · rw [if_pos hbus] at h ⊢
    by_cases hfc : s1.registers.getD (substr 3 cur 13) 0 = 0xFC ∨
        s1.registers.getD (substr 3 cur 13) 0 = 0xFD
    · rw [if_pos hfc] at h
      simp at h
    · rw [if_neg hfc] at h ⊢
      by_cases hfe : 0xFE ≤ s1.registers.getD (substr 3 cur 13) 0
      · rw [if_pos hfe]
        rfl
      · rw [if_neg hfe]
        rfl
  · rw [if_neg hbus]
    rfl

theorem busWritePhaseTotal_fault (s1 : MachineState) (cur f : Nat) (fl : Flags)
    (fk : Fault) (h : (busWritePhaseTotal s1 cur f fl).2 = some fk) :
    fk = Fault.writeToInput ∧ (busWritePhaseTotal s1 cur f fl).1 = s1 ∧
    (cur.testBit 16 = true ∧ cur.testBit 17 = true ∧
      (s1.registers.getD (substr 3 cur 13) 0 = 0xFC ∨
       s1.registers.getD (substr 3 cur 13) 0 = 0xFD)) := by
  unfold busWritePhaseTotal at h ⊢
  simp only [] at h ⊢
  by_cases hbus : (cur.testBit 16 && cur.testBit 17) = true
  · rw [if_pos hbus] at h ⊢
    by_cases hfc : s1.registers.getD (substr 3 cur 13) 0 = 0xFC ∨
        s1.registers.getD (substr 3 cur 13) 0 = 0xFD
    · rw [if_pos hfc] at h ⊢
      refine ⟨(Option.some.inj h).symm, rfl, ?_, ?_, hfc⟩
      · exact (Bool.and_eq_true _ _ |>.mp hbus).1
      · exact (Bool.and_eq_true _ _ |>.mp hbus).2
    · rw [if_neg hfc] at h
      split at h <;> simp at h
  · rw [if_neg hbus] at h
    simp at h

theorem busWritePhaseTotal_fault_iff (s1 : MachineState) (cur f : Nat) (fl : Flags) :
    (busWritePhaseTotal s1 cur f fl).2.isSome = true ↔
      (cur.testBit 16 = true ∧ cur.testBit 17 = true ∧
       (s1.registers.getD (substr 3 cur 13) 0 = 0xFC ∨
        s1.registers.getD (substr 3 cur 13) 0 = 0xFD)) := by
  unfold busWritePhaseTotal
  simp only []
  by_cases hbus : (cur.testBit 16 && cur.testBit 17) = true
  · rw [if_pos hbus]
    by_cases hfc : s1.registers.getD (substr 3 cur 13) 0 = 0xFC ∨
        s1.registers.getD (substr 3 cur 13) 0 = 0xFD
    · rw [if_pos hfc]
      simp only [Option.isSome_some, true_iff]
      exact ⟨(Bool.and_eq_true _ _ |>.mp hbus).1, (Bool.and_eq_true _ _ |>.mp hbus).2, hfc⟩
    · rw [if_neg hfc]
      split <;>
        exact ⟨fun hx => by simp at hx, fun hcc => absurd hcc.2.2 hfc⟩
  · rw [if_neg hbus]
    refine ⟨fun hx => by simp at hx, fun hcc => ?_⟩
    exact absurd (by simp [hcc.1, hcc.2.1]) hbus

theorem busWritePhaseTotal_write (s1 : MachineState) (cur f : Nat) (fl : Flags)
    (hok : (busWritePhaseTotal s1 cur f fl).2 = none)
    (h16 : cur.testBit 16 = true) (h17 : cur.testBit 17 = true) :
    (0xFE ≤ s1.registers.getD (substr 3 cur 13) 0 →
      (busWritePhaseTotal s1 cur f fl).1.outputRegister =
        s1.outputRegister.set (s1.registers.getD (substr 3 cur 13) 0 - 0xFE) f) ∧
    (s1.registers.getD (substr 3 cur 13) 0 < 0xFC →
      (busWritePhaseTotal s1 cur f fl).1.ram =
        s1.ram.set (s1.registers.getD (substr 3 cur 13) 0) f) := by
  unfold busWritePhaseTotal at hok ⊢
  simp only [] at hok ⊢
  rw [if_pos (by simp [h16, h17])] at hok ⊢
  by_cases hfc : s1.registers.getD (substr 3 cur 13) 0 = 0xFC ∨
      s1.registers.getD (substr 3 cur 13) 0 = 0xFD
  · rw [if_pos hfc] at hok
    simp at hok
  · rw [if_neg hfc] at hok ⊢
    by_cases hfe : 0xFE ≤ s1.registers.getD (substr 3 cur 13) 0
    · rw [if_pos hfe]
      exact ⟨fun _ => rfl, fun hlt => absurd hlt (by omega)⟩
    · rw [if_neg hfe]
      exact ⟨fun hge => absurd hge hfe, fun _ => rfl⟩

theorem stepTotal_pc (s : MachineState) (h2 : (stepTotal s).2 = none) :
    (stepTotal s).1.nextInstruction =
      calculateNextAddress (substr 5 (s.instructionRam.getD s.nextInstruction 0) 18)
        (substr 2 (s.instructionRam.getD s.nextInstruction 0) 23)
        (aluFlagsNew s (s.instructionRam.getD s.nextInstruction 0))
        (if (s.instructionRam.getD s.nextInstruction 0).testBit 0 then
           aluFlagsNew s (s.instructionRam.getD s.nextInstruction 0)
         else s.flags) := by
  unfold stepTotal at h2 ⊢
  simp only [] at h2 ⊢
  set cur := s.instructionRam.getD s.nextInstruction 0 with hc
  by_cases c1 : (cur.testBit 6 && !cur.testBit 16) = true
  · rw [if_pos c1] at h2
    simp at h2
  · rw [if_neg c1] at h2 ⊢
    by_cases c2 : (cur.testBit 6 && cur.testBit 17) = true
    · rw [if_pos c2] at h2
      simp at h2
    · rw [if_neg c2] at h2 ⊢
      unfold stepRest at h2 ⊢
      simp only [] at h2 ⊢
      exact busWritePhaseTotal_pc _ cur _ _ h2

theorem stepTotal_fault (s : MachineState) (fk : Fault)
    (h : (stepTotal s).2 = some fk) :
    ((fk = Fault.readDisabled ∨ fk = Fault.readWriteOnly) ∧ (stepTotal s).1 = s) ∨
    (fk = Fault.writeToInput ∧
      (stepTotal s).1 =
        { s with registers :=
            regsAfterWriteback s (s.instructionRam.getD s.nextInstruction 0) }) := by
  unfold stepTotal at h ⊢
  simp only [] at h ⊢
  set cur := s.instructionRam.getD s.nextInstruction 0 with hc
  by_cases c1 : (cur.testBit 6 && !cur.testBit 16) = true
  · rw [if_pos c1] at h ⊢
    exact Or.inl ⟨Or.inl (Option.some.inj h).symm, rfl⟩
  · rw [if_neg c1] at h ⊢
    by_cases c2 : (cur.testBit 6 && cur.testBit 17) = true
    · rw [if_pos c2] at h ⊢
      exact Or.inl ⟨Or.inr (Option.some.inj h).symm, rfl⟩
    · rw [if_neg c2] at h ⊢
      unfold stepRest at h ⊢
      simp only [] at h ⊢
      obtain ⟨hfk, h1, _⟩ := busWritePhaseTotal_fault _ cur _ _ fk h
      exact Or.inr ⟨hfk, h1⟩

theorem busWritePhaseTotal_wti_iff (s1 : MachineState) (cur f : Nat) (fl : Flags) :
    (busWritePhaseTotal s1 cur f fl).2 = some Fault.writeToInput ↔
      ((cur.testBit 16 && cur.testBit 17) = true ∧
       (s1.registers.getD (substr 3 cur 13) 0 = 0xFC ∨
        s1.registers.getD (substr 3 cur 13) 0 = 0xFD)) := by
  unfold busWritePhaseTotal
  simp only []
  by_cases hbus : (cur.testBit 16 && cur.testBit 17) = true
  · rw [if_pos hbus]
    by_cases hfc : s1.registers.getD (substr 3 cur 13) 0 = 0xFC ∨
        s1.registers.getD (substr 3 cur 13) 0 = 0xFD
    · rw [if_pos hfc]
      exact ⟨fun _ => ⟨hbus, hfc⟩, fun _ => rfl⟩
    · rw [if_neg hfc]
      constructor
      · intro hx
        split at hx <;> simp at hx
      · intro hcc
        exact absurd hcc.2 hfc
  · rw [if_neg hbus]
    exact ⟨fun hx => by simp at hx, fun hcc => absurd hcc.1 hbus⟩

/-- C3: the claim states that the carry-out of ADD+1 (op 0101) and ADCI
(op 0111) is the logical complement of the 9-bit carry, so 0 for
a = b = 0xFF.  The code computes flags[0] = ~(tmp > 255): the bool is
promoted to int, complemented to -1 or -2 and converted back to bool, so
the carry-out is 1 even when the 9-bit sum overflows.  This theorem
evaluates the embedded code at the failing inputs: for a = b = 0xFF the
ADD+1 carry-out is 1 (the claim and the function table in Alu.h say 0),
and likewise for ADCI with carry-in 1. -/
theorem addp1_adci_carry_bug :
    (aluCalculate 5 255 255 { c := false, n := false, z := false }).2.c = true ∧
    (aluCalculate 7 255 255 { c := true, n := false, z := false }).2.c = true ∧
    255 + 255 + 1 > 255 := by decide

/-- C4: the claim states that ZERO (op 0011) returns f = 0 with negative
flag 0 and zero flag 1.  The code computes f = ~(a|b), exactly as NOR.
At the inputs of the unit test in AluTest.cpp (a = 0b11010100,
b = 0b00101101, which the test expects to give 0) the embedded code gives
f = 2 with zero flag 0, and at a = b = 0 it gives f = 255 with negative
flag 1. -/
theorem zero_op_result_bug :
    (aluCalculate 3 212 45 { c := false, n := false, z := false }).1 = 2 ∧
    (aluCalculate 3 212 45 { c := false, n := false, z := false }).2.z = false ∧
    (aluCalculate 3 0 0 { c := false, n := false, z := false }).1 = 255 ∧
    (aluCalculate 3 0 0 { c := false, n := false, z := false }).2.n = true := by decide

/-- C6: with BSEL=1 the b operand is built from the 4-bit immediate
{IMM3, BREG} in bits 9-12 of the microword: bits 0-2 of b equal the BREG
bits (microword bits 9-11), bits 3-7 of b are all equal to IMM3
(microword bit 12; all 1 when IMM3=1, all 0 when IMM3=0), and all higher
bits are 0. -/
theorem immediate_operand_bits (s : MachineState) (cur : Nat)
    (h5 : cur.testBit 5 = true) :
    ∃ b, operandB s cur = some b ∧
      (∀ i, i < 3 → b.testBit i = cur.testBit (9 + i)) ∧
      (∀ i, 3 ≤ i → i < 8 → b.testBit i = cur.testBit 12) ∧
      (∀ i, 8 ≤ i → b.testBit i = false) := by
  have hm : substr 4 cur 9 % 8 < 8 := Nat.mod_lt _ (by norm_num)
  have ht3 : (substr 4 cur 9).testBit 3 = cur.testBit 12 := by
    unfold substr
    rw [Nat.testBit_mod_two_pow, Nat.testBit_shiftRight]
    norm_num
  have htl : ∀ i, i < 3 → (substr 4 cur 9 % 8).testBit i = cur.testBit (9 + i) := by
    intro i hi
    have e8 : (8 : Nat) = 2 ^ 3 := by norm_num
    rw [e8, Nat.testBit_mod_two_pow, decide_eq_true hi, Bool.true_and]
    unfold substr
    rw [Nat.testBit_mod_two_pow, Nat.testBit_shiftRight,
      decide_eq_true (by omega : i < 4), Bool.true_and]
  rcases h3 : (substr 4 cur 9).testBit 3 with _ | _
  · refine ⟨substr 4 cur 9 % 8, ?_, ?_, ?_, ?_⟩
    · unfold operandB
      rw [if_pos h5, h3]
      simp
    · exact htl
    · intro i hi3 _
      rw [← ht3, h3]
      refine Nat.testBit_lt_two_pow (lt_of_lt_of_le ?_ (Nat.pow_le_pow_right (by norm_num) hi3))
      have e3 : (2 : Nat) ^ 3 = 8 := by norm_num
      omega
    · intro i hi
      refine Nat.testBit_lt_two_pow
        (lt_of_lt_of_le ?_ (Nat.pow_le_pow_right (by norm_num) (by omega : 3 ≤ i)))
      have e3 : (2 : Nat) ^ 3 = 8 := by norm_num
      omega
  · refine ⟨248 + substr 4 cur 9 % 8, ?_, ?_, ?_, ?_⟩
    · unfold operandB
      rw [if_pos h5, h3]
      simp
    · intro i hi
      rw [← htl i hi, Nat.testBit_to_div_mod, Nat.testBit_to_div_mod]
      interval_cases i <;> exact decide_eq_decide.mpr (by omega)
    · intro i hi3 hi8
      rw [← ht3, h3, Nat.testBit_to_div_mod]
      interval_cases i <;> exact decide_eq_true (by omega)
    · intro i hi
      refine Nat.testBit_lt_two_pow
        (lt_of_lt_of_le ?_ (Nat.pow_le_pow_right (by norm_num) hi))
      have e8 : (2 : Nat) ^ 8 = 256 := by norm_num
      omega

/-- Witness for C6 at the concrete microword 4640 (BSEL=1, IMM3=1,
BREG=001, so b = 249). -/
theorem immediate_operand_bits_wit :
    ∃ b, operandB initialState 4640 = some b ∧
      (∀ i, i < 3 → b.testBit i = (4640 : Nat).testBit (9 + i)) ∧
      (∀ i, 3 ≤ i → i < 8 → b.testBit i = (4640 : Nat).testBit 12) ∧
      (∀ i, 8 ≤ i → b.testBit i = false) :=
  immediate_operand_bits initialState 4640 (by decide)

/-- C9 (counterexample): setOutputRegister is a public member of the SoC
(SoC.h line 28, implemented in Cpu.cpp lines 77-82) and it writes an
output port: calling it on the initial state changes OUT[0] from 0 to 42,
so the external interface does not only let callers read output ports. -/
theorem output_port_externally_writable_cex :
    (setOutputRegister 0 42 initialState).map (fun t => t.outputRegister) =
      some [42, 0] ∧
    initialState.outputRegister = [0, 0] := by decide

/-- C9 (amended): besides step(), the public interface also contains
setOutputRegister, which for an index below 2 stores the given byte in
OUT[index] (and fails with an out-of-range error for any other index);
output ports are therefore externally writable through it.  The other
external mutators do not touch the output ports. -/
theorem setOutputRegister_spec (s : MachineState) (p v : Nat) :
    (p < 2 → setOutputRegister p v s =
      some { s with outputRegister := s.outputRegister.set p (v % 256) }) ∧
    (2 ≤ p → setOutputRegister p v s = none) ∧
    (∀ q w t, setRam q w s = some t → t.outputRegister = s.outputRegister) ∧
    (∀ q w t, setInstruction q w s = some t → t.outputRegister = s.outputRegister) ∧
    (∀ q w t, setInputRegister q w s = some t → t.outputRegister = s.outputRegister) := by
  refine ⟨?_, ?_, ?_, ?_, ?_⟩
  · intro hp
    unfold setOutputRegister
    rw [if_pos (by simpa [outputRegisterCount] using hp)]
  · intro hp
    unfold setOutputRegister
    rw [if_neg (by simp only [outputRegisterCount]; omega)]
  · intro q w t ht
    unfold setRam at ht
    split at ht
    · cases ht; rfl
    · cases ht
  · intro q w t ht
    unfold setInstruction at ht
    split at ht
    · cases ht; rfl
    · cases ht
  · intro q w t ht
    unfold setInputRegister at ht
    split at ht
    · cases ht; rfl
    · cases ht

/-- Witness for C9 (amended) at index 0 and value 42, and at the
out-of-range index 2. -/
theorem setOutputRegister_spec_wit :
    setOutputRegister 0 42 initialState =
      some { initialState with
               outputRegister := initialState.outputRegister.set 0 42 } ∧
    setOutputRegister 2 7 initialState = none :=
  ⟨(setOutputRegister_spec initialState 0 42).1 (by decide),
   (setOutputRegister_spec initialState 2 7).2.1 (by decide)⟩

/-- C10: on every reachable machine state, runInstruction performs no
out-of-range array access: the bounds-checked embedding never returns
none, i.e. the call either completes or raises a BusFault. -/
theorem step_no_out_of_range (s : MachineState) (h : Reachable s) :
    (runInstruction s).isSome = true := by
  rw [runInstruction_eq s (wf_reachable s h)]
  rfl

/-- Witness for C10 at the initial state. -/
theorem step_no_out_of_range_wit : (runInstruction initialState).isSome = true :=
  step_no_out_of_range initialState Reachable.init

/-- C1 (counterexample): in stateC1 the latched carry is 1 and instruction
0 is CLC with FL=1, MAC=01, NEXT=00001, so the new carry is 0.  The claim
says the low PC bit equals the carry latched before the step (1,
regardless of FL), but the step ends with PC = 0, while next_addr applied
to the pre-step flag register gives 1: with FL=1 the code updates the
flag register before computing the next address. -/
theorem pc_update_ignores_old_latched_carry_cex :
    (runInstruction stateC1).map (fun r => (r.1.nextInstruction, r.2)) =
      some (0, none) ∧
    calculateNextAddress (substr 5 8650777 18) (substr 2 8650777 23)
      (aluFlagsNew stateC1 8650777) stateC1.flags = 1 ∧
    stateC1.flags.c = true := by decide

/-- C1 (amended): after a successful step the PC equals
next_addr(NEXT, MAC, new_flags, latched), where latched is the flag
register content at the moment of the next-address computation: the
pre-step flags when FL=0, but the just-computed flags when FL=1 (the
latch happens first). -/
theorem pc_update_amended (s : MachineState) (h : WF s)
    (r : MachineState × Option Fault) (hr : runInstruction s = some r)
    (hok : r.2 = none) :
    r.1.nextInstruction =
      calculateNextAddress
        (substr 5 (s.instructionRam.getD s.nextInstruction 0) 18)
        (substr 2 (s.instructionRam.getD s.nextInstruction 0) 23)
        (aluFlagsNew s (s.instructionRam.getD s.nextInstruction 0))
        (if (s.instructionRam.getD s.nextInstruction 0).testBit 0 then
           aluFlagsNew s (s.instructionRam.getD s.nextInstruction 0)
         else s.flags) := by
  rw [runInstruction_eq s h] at hr
  obtain rfl := Option.some.inj hr
  exact stepTotal_pc s hok

/-- Witness for C1 (amended) at stateC1. -/
theorem pc_update_amended_wit :
    (stepTotal stateC1).1.nextInstruction =
      calculateNextAddress (substr 5 8650777 18) (substr 2 8650777 23)
        (aluFlagsNew stateC1 8650777)
        (if (8650777 : Nat).testBit 0 then aluFlagsNew stateC1 8650777
         else stateC1.flags) :=
  pc_update_amended stateC1 (by decide) (stepTotal stateC1) (by decide) (by decide)

/-- C2 (counterexample): in stateC2 instruction 0 loads the immediate
0xFC into register 0 (WR=1, WTGT=0) and performs an enabled bus write;
the write faults because the address is 0xFC, but the register writeback
is already visible afterwards: register 0 changed from 0 to 0xFC, so the
failed step is not atomic. -/
theorem fault_atomicity_cex :
    (runInstruction stateC2).map (fun r => (r.1.registers.getD 0 0, r.2)) =
      some (252, some Fault.writeToInput) ∧
    stateC2.registers.getD 0 0 = 0 := by decide

/-- C2 (amended): a faulting step leaves RAM, the output and input ports,
the instruction memory, the flag register and the PC unchanged; the two
bus-read faults leave the whole state unchanged, but the write-to-input
fault is raised after the register writeback, so with WR=1 the written
register keeps its new value. -/
theorem fault_partial_state_amended (s : MachineState) (h : WF s)
    (r : MachineState × Option Fault) (hr : runInstruction s = some r)
    (fk : Fault) (hf : r.2 = some fk) :
    r.1.ram = s.ram ∧ r.1.outputRegister = s.outputRegister ∧
    r.1.inputRegister = s.inputRegister ∧
    r.1.instructionRam = s.instructionRam ∧ r.1.flags = s.flags ∧
    r.1.nextInstruction = s.nextInstruction ∧
    (fk = Fault.writeToInput →
      r.1.registers =
        regsAfterWriteback s (s.instructionRam.getD s.nextInstruction 0)) ∧
    ((fk = Fault.readDisabled ∨ fk = Fault.readWriteOnly) → r.1 = s) := by
  rw [runInstruction_eq s h] at hr
  obtain rfl := Option.some.inj hr
  rcases stepTotal_fault s fk hf with ⟨hk, h1⟩ | ⟨hk, h1⟩
  · rw [h1]
    refine ⟨rfl, rfl, rfl, rfl, rfl, rfl, ?_, fun _ => rfl⟩
    intro hw
    rw [hw] at hk
    rcases hk with hk | hk <;> exact absurd hk (by decide)
  · rw [h1]
    refine ⟨rfl, rfl, rfl, rfl, rfl, rfl, fun _ => rfl, ?_⟩
    intro hor
    rw [hk] at hor
    rcases hor with hk2 | hk2 <;> exact absurd hk2 (by decide)

/-- Witness for C2 (amended) at stateC2: the fault is writeToInput, the
PC did not advance and the register file equals the post-writeback file. -/
theorem fault_partial_state_amended_wit :
    (stepTotal stateC2).1.nextInstruction = stateC2.nextInstruction ∧
    (stepTotal stateC2).1.registers = regsAfterWriteback stateC2 202914 := by
  have h := fault_partial_state_amended stateC2 (by decide) (stepTotal stateC2)
    (by decide) Fault.writeToInput (by decide)
  exact ⟨h.2.2.2.2.2.1, h.2.2.2.2.2.2.1 rfl⟩

/-- C5: a step on a well-formed state raises a BusFault exactly when
ASRC=1 with BUS_EN=0, or ASRC=1 with BUS_WR=1, or an enabled bus write
targets address 0xFC or 0xFD (the address being the post-writeback value
of REG[AREG]); a non-faulting enabled bus write with address at least
0xFE stores the ALU result in OUT[address-0xFE], and with address below
0xFC in RAM[address]. -/
theorem busfault_iff (s : MachineState) (h : WF s) (cur : Nat)
    (hcur : cur = s.instructionRam.getD s.nextInstruction 0)
    (r : MachineState × Option Fault) (hr : runInstruction s = some r) :
    (r.2.isSome = true ↔
      (cur.testBit 6 = true ∧ cur.testBit 16 = false) ∨
      (cur.testBit 6 = true ∧ cur.testBit 17 = true) ∨
      (cur.testBit 16 = true ∧ cur.testBit 17 = true ∧
        (busWriteAddress s cur = 0xFC ∨ busWriteAddress s cur = 0xFD))) ∧
    (r.2 = none → cur.testBit 16 = true → cur.testBit 17 = true →
      (0xFE ≤ busWriteAddress s cur →
        r.1.outputRegister =
          s.outputRegister.set (busWriteAddress s cur - 0xFE) (aluF s cur)) ∧
      (busWriteAddress s cur < 0xFC →
        r.1.ram = s.ram.set (busWriteAddress s cur) (aluF s cur))) := by
  rw [runInstruction_eq s h] at hr
  obtain rfl := Option.some.inj hr
  by_cases c1 : (cur.testBit 6 && !cur.testBit 16) = true
  · have hst : stepTotal s = (s, some Fault.readDisabled) := by
      unfold stepTotal
      rw [← hcur, if_pos c1]
    rw [hst]
    obtain ⟨h6, h16⟩ := Bool.and_eq_true _ _ |>.mp c1
    refine ⟨?_, ?_⟩
    · simp only [Option.isSome_some, true_iff]
      exact Or.inl ⟨h6, by simpa using h16⟩
    · intro hnone
      simp at hnone
  · by_cases c2 : (cur.testBit 6 && cur.testBit 17) = true
    · have hst : stepTotal s = (s, some Fault.readWriteOnly) := by
        unfold stepTotal
        rw [← hcur, if_neg c1, if_pos c2]
      rw [hst]
      obtain ⟨h6, h17⟩ := Bool.and_eq_true _ _ |>.mp c2
      refine ⟨?_, ?_⟩
      · simp only [Option.isSome_some, true_iff]
        exact Or.inr (Or.inl ⟨h6, h17⟩)
      · intro hnone
        simp at hnone
    · have hst : stepTotal s =
          busWritePhaseTotal { s with registers := regsAfterWriteback s cur } cur
            (aluF s cur) (aluFlagsNew s cur) := by
        unfold stepTotal
        rw [← hcur, if_neg c1, if_neg c2]
        rfl
      rw [hst]
      have hba : ({ s with registers := regsAfterWriteback s cur } :
          MachineState).registers.getD (substr 3 cur 13) 0 = busWriteAddress s cur := rfl
      refine ⟨?_, ?_⟩
      · rw [busWritePhaseTotal_fault_iff, hba]
        constructor
        · intro hcc
          exact Or.inr (Or.inr hcc)
        · rintro (⟨h6, h16⟩ | ⟨h6, h17⟩ | hcc)
          · exact absurd (by simp [h6, h16]) c1
          · exact absurd (by simp [h6, h17]) c2
          · exact hcc
      · intro hnone h16 h17
        have hw := busWritePhaseTotal_write _ cur (aluF s cur) (aluFlagsNew s cur)
          hnone h16 h17
        rw [hba] at hw
        exact hw

/-- Witness for C5 at stateC2 (enabled bus write whose post-writeback
address is 0xFC, hence a fault). -/
theorem busfault_iff_wit : (stepTotal stateC2).2.isSome = true :=
  (busfault_iff stateC2 (by decide) 202914 (by decide) (stepTotal stateC2)
    (by decide)).1.mpr (Or.inr (Or.inr (by decide)))

/-- C7: with WR=1, WTGT=0, BUS_EN=1, BUS_WR=1 (and ASRC=0, as a bus read
would fault on a write-only bus) the register writeback happens before
the bus write samples its address, so the sampled address is the ALU
result F itself: the fault test of the bus write sees F, not the value
REG[AREG] had when the step began. -/
theorem writeback_before_bus_address (s : MachineState) (h : WF s) (cur : Nat)
    (hcur : cur = s.instructionRam.getD s.nextInstruction 0)
    (h7 : cur.testBit 7 = true) (h8 : cur.testBit 8 = false)
    (h16 : cur.testBit 16 = true) (h17 : cur.testBit 17 = true)
    (h6 : cur.testBit 6 = false) :
    busWriteAddress s cur = aluF s cur ∧
    runInstruction s = some (stepTotal s) ∧
    ((stepTotal s).2 = some Fault.writeToInput ↔
      (aluF s cur = 0xFC ∨ aluF s cur = 0xFD)) := by
  have hrl : s.registers.length = 8 := h.2.2.1
  have haddr : busWriteAddress s cur = aluF s cur := by
    unfold busWriteAddress regsAfterWriteback
    rw [if_pos h7, if_neg (by simp [h8])]
    exact getD_set_self _ (by rw [hrl]; exact substr_lt 3 cur 13)
  refine ⟨haddr, runInstruction_eq s h, ?_⟩
  have hst : stepTotal s =
      busWritePhaseTotal { s with registers := regsAfterWriteback s cur } cur
        (aluF s cur) (aluFlagsNew s cur) := by
    unfold stepTotal
    rw [← hcur, if_neg (by simp [h6]), if_neg (by simp [h6])]
    rfl
  rw [hst, busWritePhaseTotal_wti_iff]
  have hba : ({ s with registers := regsAfterWriteback s cur } :
      MachineState).registers.getD (substr 3 cur 13) 0 = busWriteAddress s cur := rfl
  rw [hba, haddr]
  simp [h16, h17]

/-- Witness for C7 at stateC2: the sampled address equals F = 0xFC and
the step faults with writeToInput. -/
theorem writeback_before_bus_address_wit :
    busWriteAddress stateC2 202914 = aluF stateC2 202914 ∧
    (stepTotal stateC2).2 = some Fault.writeToInput := by
  have h := writeback_before_bus_address stateC2 (by decide) 202914 (by decide)
    (by decide) (by decide) (by decide) (by decide) (by decide)
  exact ⟨h.1, h.2.2.mpr (by decide)⟩

/-- C8: a microword with WR=0, BUS_EN=0, FL=0 and ASRC=0 only changes the
PC: the step succeeds and the resulting state is the starting state with
only nextInstruction replaced (RAM, registers, both port files, the
instruction memory and the flag register are untouched). -/
theorem frame_only_pc (s : MachineState) (h : WF s) (cur : Nat)
    (hcur : cur = s.instructionRam.getD s.nextInstruction 0)
    (h7 : cur.testBit 7 = false) (h16 : cur.testBit 16 = false)
    (h0 : cur.testBit 0 = false) (h6 : cur.testBit 6 = false) :
    runInstruction s =
      some ({ s with nextInstruction :=
          (calculateNextAddress (substr 5 cur 18) (substr 2 cur 23)
            (aluFlagsNew s cur) s.flags) }, none) := by
  rw [runInstruction_eq s h]
  have hst : stepTotal s =
      busWritePhaseTotal { s with registers := regsAfterWriteback s cur } cur
        (aluF s cur) (aluFlagsNew s cur) := by
    unfold stepTotal
    rw [← hcur, if_neg (by simp [h6]), if_neg (by simp [h6])]
    rfl
  rw [hst]
  unfold busWritePhaseTotal
  rw [if_neg (by simp [h16])]
  have hregs : regsAfterWriteback s cur = s.registers := by
    unfold regsAfterWriteback
    rw [if_neg (by simp [h7])]
  rw [hregs]
  unfold latchAndAdvance
  rw [if_neg (by simp [h0])]

/-- Witness for C8 at the initial state (microword 0 has all control bits
clear). -/
theorem frame_only_pc_wit :
    runInstruction initialState =
      some ({ initialState with nextInstruction :=
          (calculateNextAddress (substr 5 0 18) (substr 2 0 23)
            (aluFlagsNew initialState 0) initialState.flags) }, none) :=
  frame_only_pc initialState wf_initial 0 (by decide) (by decide) (by decide)
    (by decide) (by decide)

end Minirechner2i
